import Mathlib

/-!
Verification development for the Edupulse news-aggregation repository.

Shallow embedding conventions:
- Python `str` values are modelled as Lean `String` / `List Char` (one entry per
  code point, matching Python's `len`, indexing and slicing semantics).
- Python dictionaries carrying the normalized article record are modelled by the
  `Article` structure; a key that is absent is modelled by the empty string
  (the code only ever reads these keys with `.get(key, default)`).
- Network I/O is modelled by passing the decoded response (or the raised error)
  as an explicit argument to the adapter function.
- Python float scores in the summarizer are modelled as exact rationals; no
  claim in this development depends on a score's numeric value.
-/

/-- The canonical normalized article record produced by the source adapters
(`news_fetcher.py`, `rss_fetcher.py`).  Field names follow the Python dict keys;
`source` holds the source's `name` entry. -/
structure Article where
  title : String
  description : String
  content : String
  url : String
  urlToImage : String
  publishedAt : String
  source : String
  has_full_content : Bool
  published_date : String
  author : String
deriving DecidableEq, Repr

/-- Helper to build an article from the fields the claims exercise; remaining
fields default to the empty string / `false`. -/
def mkArt (title description content url published_date : String) : Article :=
  { title := title, description := description, content := content, url := url,
    urlToImage := "", publishedAt := "", source := "", has_full_content := false,
    published_date := published_date, author := "" }

/-! ## Aggregator deduplication (`news_fetcher.py`, `NewsSourceFetcher.fetch_news`, lines 44-53)

The accumulation loop (lines 31-42) extends `articles` with the results of each
adapter; the deduplication step below receives that accumulated list.  The
Python `seen_titles` set is modelled as the list of titles added so far. -/

/-- Loop of lines 47-51: `title = article.get('title', ''); if title and title
not in seen_titles: seen_titles.add(title); unique_articles.append(article)`. -/
def dedupLoop (seen : List String) : List Article → List Article
  | [] => []
  | a :: rest =>
    if a.title ≠ "" ∧ a.title ∉ seen then a :: dedupLoop (a.title :: seen) rest
    else dedupLoop seen rest

/-- Lines 44-53 of `fetch_news`: deduplicate the accumulated articles by title,
then `return unique_articles[:max_articles]`. -/
def fetch_news_post (articles : List Article) (max_articles : Nat) : List Article :=
  (dedupLoop [] articles).take max_articles

/-! ## Guardian adapter (`news_fetcher.py`, `NewsSourceFetcher._fetch_from_guardian`)

The HTTP layer (lines 60-72) either raises (propagating to `fetch_news`'s
`except`) or yields the decoded list of result items; the mapping of lines
74-90 is embedded below.  An `Option` field models presence/absence of the
corresponding key in the JSON item. -/

/-- One entry of `data['response']['results']`, restricted to the keys read by
the adapter (fields of one item, with `fields` flattened in). -/
structure GuardianItem where
  webTitle : Option String
  trailText : Option String
  bodyText : Option String
  shortUrl : Option String
  webUrl : Option String
  thumbnail : Option String
  webPublicationDate : Option String
deriving DecidableEq, Repr

/-- Lines 78-87: build one Article from a Guardian result item. -/
def guardianItemToArticle (it : GuardianItem) : Article :=
  { title := it.webTitle.getD "No Title"
    description := it.trailText.getD "No description available"
    content := it.bodyText.getD ""
    url := it.shortUrl.getD (it.webUrl.getD "")
    urlToImage := it.thumbnail.getD ""
    publishedAt := it.webPublicationDate.getD ""
    source := "The Guardian"
    has_full_content := true
    published_date := ""
    author := "" }

/-- Lines 74-90: map every result item of a successfully decoded response. -/
def fetchFromGuardian (items : List GuardianItem) : List Article :=
  items.map guardianItemToArticle

/-! ## NewsAPI adapter (`news_fetcher.py`, `NewsSourceFetcher._fetch_from_newsapi`) -/

/-- One entry of `data['articles']`, restricted to the keys the adapter reads.
`source` stands for the raw source object (its name). -/
structure NewsApiItem where
  title : Option String
  description : Option String
  content : Option String
  url : Option String
  urlToImage : Option String
  publishedAt : Option String
  source : Option String
deriving DecidableEq, Repr

/-- Lines 116-125: build one Article from a NewsAPI item. -/
def newsApiItemToArticle (it : NewsApiItem) : Article :=
  { title := it.title.getD "No Title"
    description := it.description.getD "No description available"
    content := it.content.getD ""
    url := it.url.getD ""
    urlToImage := it.urlToImage.getD ""
    publishedAt := it.publishedAt.getD ""
    source := it.source.getD ""
    has_full_content := false
    published_date := ""
    author := "" }

/-- Python truthiness test `not self.newsapi_key` for `os.getenv('NEWS_API_KEY')`:
true when the variable is absent (`None`) or set to the empty string. -/
def pyFalsy (o : Option String) : Bool :=
  match o with
  | none => true
  | some s => s.data.isEmpty

/-- Line 97-98 guard: does `_fetch_from_newsapi` reach the `requests.get` call? -/
def newsapiAttemptsNetwork (key : Option String) : Bool := !(pyFalsy key)

/-- Lines 92-128 of `_fetch_from_newsapi`: with no key the function returns `[]`
before any network access; otherwise the network outcome (decoded items, or the
exception raised by `requests.get` / `raise_for_status`) determines the result. -/
def fetchFromNewsapi (key : Option String) (networkOutcome : Except String (List NewsApiItem)) :
    Except String (List Article) :=
  if pyFalsy key then Except.ok []
  else networkOutcome.map (List.map newsApiItemToArticle)

/-! ## Summarizer (`summarization.py`, `ArticleSummarizer`)

All text is manipulated as `List Char`.  `String.data` converts an article
field to its code-point list. -/

/-- Character class of Python `\s` (ASCII cases; the texts involved contain no
form-feed/vertical-tab, for which Python and this model differ). -/
def pySpace (c : Char) : Bool := c.isWhitespace

/-- Character class of Python `\w` (ASCII cases: letters, digits, underscore). -/
def isWordChar (c : Char) : Bool := c.isAlphanum || c == '_'

/-- Python `str.strip()`: drop whitespace from both ends. -/
def pyStrip (l : List Char) : List Char :=
  ((l.dropWhile pySpace).reverse.dropWhile pySpace).reverse

/-- Python `str.split()` (no argument): split on whitespace runs, no empty parts. -/
def pySplitWs (l : List Char) : List (List Char) :=
  (l.splitOnP pySpace).filter (fun w => w ≠ [])

/-- Python `' '.join(...)` over sentence lists. -/
def joinSpace (l : List (List Char)) : List Char := List.intercalate [' '] l

/-- The `"..."` marker appended on truncation. -/
def ellipsis : List Char := ['.', '.', '.']

/-- The repeated Python pattern
`x[:max_length] + "..." if len(x) > max_length else x` (lines 45, 51, 55). -/
def truncWith (l : List Char) (max_length : Nat) : List Char :=
  if l.length > max_length then l.take max_length ++ ellipsis else l

/-- Line 71: `summary[:max_length].rsplit(' ', 1)[0]` — everything before the
last space, or the whole list if it contains no space. -/
def beforeLastSpace (l : List Char) : List Char :=
  match l.reverse.dropWhile (fun c => !(c == ' ')) with
  | [] => l
  | _ :: rest => rest.reverse

/-- Line 41: `full_text = f"{title}. {description}. {content}"`. -/
def fullTextOf (a : Article) : List Char :=
  a.title.data ++ ('.' :: ' ' :: a.description.data) ++ ('.' :: ' ' :: a.content.data)

/-- Sentence-boundary characters of `re.split(r'[.!?]+', text)` (line 78). -/
def isSentEnd (c : Char) : Bool := c == '.' || c == '!' || c == '?'

/-- Lines 75-88, `split_into_sentences`: split at punctuation, strip each piece,
keep pieces of length in (20, 300).  Python's `[.!?]+` collapses separator runs
where `splitOnP` emits an empty piece per extra separator; those empty pieces
are removed by the `20 < len` filter, so the resulting clean list coincides. -/
def split_into_sentences (text : List Char) : List (List Char) :=
  ((text.splitOnP isSentEnd).map pyStrip).filter
    (fun s => 20 < s.length ∧ s.length < 300)

/-- The summarizer's stop-word set (lines 14-23). -/
def stop_words : List (List Char) :=
  (["the", "a", "an", "and", "or", "but", "in", "on", "at", "to", "for",
    "of", "with", "by", "from", "as", "is", "was", "are", "been", "be",
    "have", "has", "had", "do", "does", "did", "will", "would", "should",
    "could", "may", "might", "must", "can", "this", "that", "these", "those",
    "i", "you", "he", "she", "it", "we", "they", "what", "which", "who",
    "when", "where", "why", "how", "all", "each", "every", "both", "few",
    "more", "most", "other", "some", "such", "no", "nor", "not", "only",
    "own", "same", "so", "than", "too", "very", "just", "said", "says"]).map String.data

/-- The summarizer's important-keyword set (lines 26-31). -/
def important_keywords : List (List Char) :=
  (["new", "research", "study", "discover", "found", "reveal", "show",
    "develop", "create", "build", "launch", "announce", "release",
    "important", "significant", "major", "breakthrough", "innovation",
    "first", "latest", "update", "improve", "advance", "technology"]).map String.data

/-- Lines 150-159, `tokenize`: replace non-word non-space characters by spaces,
lowercase, split on whitespace, drop tokens of length ≤ 2 or purely numeric. -/
def tokenize (text : List Char) : List (List Char) :=
  let cleaned := text.map (fun c => if isWordChar c || pySpace c then c else ' ')
  let words := pySplitWs (cleaned.map Char.toLower)
  words.filter (fun w => 2 < w.length ∧ ¬ w.all Char.isDigit)

/-- Lines 99-110: the frequency table after the stop-word filter and the
important-keyword doubling, read back through `word_freq.get(word, 0)`
(line 124).  A word filtered out (stop word that is not important) reads 0; a
word that never occurred reads 0 because its raw count is 0. -/
def word_freq_lookup (all_words : List (List Char)) (w : List Char) : Nat :=
  if w ∈ stop_words ∧ w ∉ important_keywords then 0
  else if w ∈ important_keywords then 2 * all_words.count w
  else all_words.count w

/-- Lines 90-148, `score_sentences_advanced`.  Python floats are modelled as
exact rationals (0.5 = 1/2, 0.7 = 7/10, 0.3 = 3/10); a sentence with no tokens
is skipped (`continue`, line 121). -/
def score_sentences_advanced (sentences : List (List Char)) (title : List Char) :
    List (List Char × ℚ) :=
  let all_words := (sentences.map tokenize).flatten
  let title_words := tokenize title
  sentences.enum.filterMap (fun p =>
    let words := tokenize p.2
    if words.length = 0 then none
    else
      let base_score : ℚ :=
        ((words.map (fun w => (word_freq_lookup all_words w : ℚ))).sum) / (words.length : ℚ)
      let position_bonus : ℚ := if p.1 < 3 then 1 else 1 / 2
      let title_overlap : Nat := (words.dedup.filter (fun w => w ∈ title_words)).length
      let title_bonus : ℚ := (title_overlap : ℚ) * (1 / 2)
      let length_penalty : ℚ :=
        if words.length < 5 then 1 / 2 else if words.length > 40 then 7 / 10 else 1
      let keyword_bonus : ℚ :=
        ((words.filter (fun w => w ∈ important_keywords)).length : ℚ) * (3 / 10)
      some (p.2, (base_score + position_bonus + title_bonus + keyword_bonus) * length_penalty))

/-- Stable insertion used to model Python's stable `sorted`/`list.sort`: `x` is
placed before the first element it is strictly ahead of, hence after any
element it ties with. -/
def insertBy (lt : α → α → Bool) (x : α) : List α → List α
  | [] => [x]
  | y :: l => if lt x y then x :: y :: l else y :: insertBy lt x l

/-- Stable sort by the strict ordering `lt` (earlier elements are inserted
first, so ties keep their original relative order, as Python's sort does). -/
def sortBy (lt : α → α → Bool) (l : List α) : List α :=
  l.foldl (fun acc x => insertBy lt x acc) []

/-- Lines 61-67: select the top `max_sentences` scored sentences (stable sort by
score descending, truncate), re-sort them by first position in `sentences`
(Python `sentences.index`), and join with single spaces. -/
def scoringSummary (sentences : List (List Char)) (title : List Char)
    (max_sentences : Nat) : List Char :=
  let scored := score_sentences_advanced sentences title
  let top := (sortBy (fun x y => decide (y.2 < x.2)) scored).take max_sentences
  let ordered := sortBy (fun x y => decide (sentences.indexOf x.1 < sentences.indexOf y.1)) top
  joinSpace (ordered.map Prod.fst)

/-- Lines 33-73, `ArticleSummarizer.summarize` (sentences are recomputed where
the Python binds them once; the computation is pure, so the value is equal). -/
def summarize (a : Article) (max_sentences : Nat) (max_length : Nat) : List Char :=
  if (fullTextOf a).length < 100 then truncWith (fullTextOf a) max_length
  else if (split_into_sentences (fullTextOf a)).length = 0 then
    truncWith a.description.data max_length
  else if (split_into_sentences (fullTextOf a)).length ≤ max_sentences then
    truncWith (joinSpace (split_into_sentences (fullTextOf a))) max_length
  else
    if (scoringSummary (split_into_sentences (fullTextOf a)) a.title.data max_sentences).length
        > max_length then
      beforeLastSpace
        ((scoringSummary (split_into_sentences (fullTextOf a)) a.title.data max_sentences).take
          max_length) ++ ellipsis
    else scoringSummary (split_into_sentences (fullTextOf a)) a.title.data max_sentences

/-! ## RSS fetcher (`rss_fetcher.py`, `RSSNewsFetcher.fetch_news`, lines 62-67)

The per-feed accumulation (lines 51-61) builds `all_articles`; lines 62-67 sort
it by `published_date` descending (`list.sort(key=..., reverse=True)`, a stable
sort) and truncate to `max_results`. -/

/-- Descending comparison on `x.get('published_date', '')` used by the stable
sort (Python string comparison is code-point lexicographic, as Lean's). -/
def rssLt (a b : Article) : Bool := decide (b.published_date < a.published_date)

/-- Lines 62-67 of `RSSNewsFetcher.fetch_news`: sort the accumulated articles
newest-first, then `return all_articles[:max_results]`. -/
def rss_fetch_news_post (all_articles : List Article) (max_results : Nat) : List Article :=
  (sortBy rssLt all_articles).take max_results

/-! ## Education classifier (`tutorial_links.py`, `TutorialLinkManager.should_show_learn_button`) -/

/-- Substring search scaffold: does `needle` occur at the head of `hay`? -/
def headMatches : List Char → List Char → Bool
  | [], _ => true
  | _ :: _, [] => false
  | a :: as, b :: bs => a == b && headMatches as bs

/-- Python's `needle in hay` substring test on code-point lists. -/
def hasSub (needle : List Char) : List Char → Bool
  | [] => headMatches needle []
  | b :: bs => headMatches needle (b :: bs) || hasSub needle bs

/-- The educational-keyword set (lines 15-21). -/
def educational_keywords : List (List Char) :=
  (["learn", "tutorial", "course", "education", "study", "training",
    "guide", "teaching", "lesson", "university", "college", "school",
    "research", "science", "technology", "programming", "coding",
    "development", "engineering", "mathematics", "physics", "chemistry",
    "biology", "history", "language", "skill", "knowledge"]).map String.data

/-- Lowercasing of a field (Python `str.lower()`, ASCII cases). -/
def lowerL (l : List Char) : List Char := l.map Char.toLower

/-- Line 56: the lowercased title. -/
def eduTitle (a : Article) : List Char := lowerL a.title.data

/-- Line 60: `full_text = f"{title} {description} {content}"` over the
lowercased fields. -/
def eduFullText (a : Article) : List Char :=
  eduTitle a ++ (' ' :: (lowerL a.description.data ++ (' ' :: lowerL a.content.data)))

/-- Lines 62-69: the educational score.  Python iterates a set accumulating
`+= 2` / `+= 1`; the keyword list has no duplicates, so the accumulated total
is the sum of each keyword's contribution. -/
def educationalScore (a : Article) : Nat :=
  (educational_keywords.map (fun kw =>
    if hasSub kw (eduFullText a) then (if hasSub kw (eduTitle a) then 2 else 1) else 0)).sum

/-- Lines 54-77, `should_show_learn_button`: true iff the score reaches 2. -/
def should_show_learn_button (a : Article) : Bool :=
  decide (2 ≤ educationalScore a)

/-! ## Bookmark store (`bookmarking.py`, `BookmarkManager`)

The manager's state is its `bookmarks` list; file persistence (`save_bookmarks`)
does not affect the list and is not modelled.  `datetime.now()` is passed in as
the `now` argument. -/

/-- The bookmark entry built at lines 47-56. -/
structure Bookmark where
  title : String
  description : String
  content : String
  url : String
  source : String
  publishedAt : String
  saved_at : String
  urlToImage : String
deriving DecidableEq, Repr

/-- Lines 47-56: the bookmark record for an article, stamped with `now`. -/
def mkBookmark (a : Article) (now : String) : Bookmark :=
  { title := a.title, description := a.description, content := a.content,
    url := a.url, source := a.source, publishedAt := a.publishedAt,
    saved_at := now, urlToImage := a.urlToImage }

/-- Lines 38-60, `add_bookmark`: refuse (returning `false`, state unchanged) if
some stored bookmark has the article's url; otherwise prepend the new bookmark
(`self.bookmarks.insert(0, bookmark)`) and return `true`. -/
def add_bookmark (state : List Bookmark) (a : Article) (now : String) :
    Bool × List Bookmark :=
  if state.any (fun b => b.url == a.url) then (false, state)
  else (true, mkBookmark a now :: state)

/-- Lines 68-70, `get_bookmarks`: return the stored list. -/
def get_bookmarks (state : List Bookmark) : List Bookmark := state

/-! ## Concrete records used by witnesses and counterexamples -/

def artX1 : Article := mkArt "x" "d1" "" "http://a/1" ""
def artX2 : Article := mkArt "x" "d2" "" "http://a/2" ""
def artY1 : Article := mkArt "y" "d3" "" "http://a/3" ""
def artA1 : Article := mkArt "a" "" "" "http://a/4" ""
def artB1 : Article := mkArt "b" "" "" "http://a/5" ""

def gItemNoBody : GuardianItem :=
  { webTitle := some "T", trailText := none, bodyText := none, shortUrl := none,
    webUrl := some "http://g/1", thumbnail := none, webPublicationDate := none }

def gItemFull : GuardianItem :=
  { webTitle := some "T2", trailText := some "teaser", bodyText := some "Full body text",
    shortUrl := some "http://g/2", webUrl := none, thumbnail := none,
    webPublicationDate := some "2026-01-02" }

def artShort : Article := mkArt "Hi" "there" "ok" "http://s/1" ""

def artThree : Article :=
  mkArt "abcdefghijabcdefghijabcdefghijabcdefghij"
    "abcdefghijabcdefghijabcdefghijabcdefghij"
    "abcdefghijabcdefghijabcdefghijabcdefghij" "http://s/2" ""

def artNoSentence : Article :=
  mkArt "" "hello"
    "ab.ab.ab.ab.ab.ab.ab.ab.ab.ab.ab.ab.ab.ab.ab.ab.ab.ab.ab.ab.ab.ab.ab.ab.ab.ab.ab.ab.ab.ab.ab.ab.ab.ab.ab."
    "http://s/3" ""

def artTut : Article := mkArt "Python Tutorial Basics" "" "" "http://t/1" ""

def rssA : Article := mkArt "r1" "" "" "http://r/1" "2026-01-05T00:00:00"
def rssB : Article := mkArt "r2" "" "" "http://r/2" "2026-03-01T00:00:00"
def rssC : Article := mkArt "r3" "" "" "http://r/3" "2026-02-11T00:00:00"

def artBm : Article := mkArt "bm" "d" "c" "http://b/1" ""

/-! ## Helper lemmas about `dedupLoop` -/

theorem dedupLoop_sublist (seen : List String) (l : List Article) :
    (dedupLoop seen l).Sublist l := by
  induction l generalizing seen with
  | nil => simp [dedupLoop]
  | cons a rest ih =>
    unfold dedupLoop
    split
    · exact (ih (a.title :: seen)).cons₂ a
    · exact (ih seen).cons a

theorem mem_dedupLoop (seen : List String) (l : List Article) :
    ∀ a ∈ dedupLoop seen l, a.title ≠ "" ∧ a.title ∉ seen := by
  induction l generalizing seen with
  | nil => simp [dedupLoop]
  | cons b rest ih =>
    intro a ha
    unfold dedupLoop at ha
    split at ha
    case isTrue h =>
      rcases List.mem_cons.mp ha with rfl | ha'
      · exact h
      · have h2 := ih (b.title :: seen) a ha'
        exact ⟨h2.1, fun hm => h2.2 (List.mem_cons_of_mem _ hm)⟩
    case isFalse h => exact ih seen a ha

theorem dedupLoop_titles_nodup (seen : List String) (l : List Article) :
    ((dedupLoop seen l).map Article.title).Nodup := by
  induction l generalizing seen with
  | nil => simp [dedupLoop]
  | cons b rest ih =>
    unfold dedupLoop
    split
    case isTrue h =>
      simp only [List.map_cons, List.nodup_cons]
      refine ⟨fun hmem => ?_, ih (b.title :: seen)⟩
      obtain ⟨a, ha, hta⟩ := List.mem_map.mp hmem
      exact (mem_dedupLoop _ _ a ha).2 (hta ▸ List.mem_cons_self _ _)
    case isFalse h => exact ih seen

theorem dedupLoop_find (seen : List String) (l : List Article) :
    ∀ a ∈ dedupLoop seen l, l.find? (fun b => b.title == a.title) = some a := by
  induction l generalizing seen with
  | nil => simp [dedupLoop]
  | cons b rest ih =>
    intro a ha
    unfold dedupLoop at ha
    split at ha
    case isTrue h =>
      rcases List.mem_cons.mp ha with rfl | ha'
      · simp [List.find?]
      · have hmem := mem_dedupLoop (b.title :: seen) rest a ha'
        have hne : (b.title == a.title) = false := by
          simp only [beq_eq_false_iff_ne, ne_eq]
          intro heq
          exact hmem.2 (heq ▸ List.mem_cons_self _ _)
        rw [List.find?_cons, hne]
        exact ih (b.title :: seen) a ha'
    case isFalse h =>
      have hmem := mem_dedupLoop seen rest a ha
      have h' : b.title = "" ∨ b.title ∈ seen := by
        by_cases hb : b.title = ""
        · exact Or.inl hb
        · by_cases hbs : b.title ∈ seen
          · exact Or.inr hbs
          · exact absurd ⟨hb, hbs⟩ h
      have hne : (b.title == a.title) = false := by
        simp only [beq_eq_false_iff_ne, ne_eq]
        intro heq
        rcases h' with h'' | h''
        · exact hmem.1 (heq ▸ h'')
        · exact hmem.2 (heq ▸ h'')
      rw [List.find?_cons, hne]
      exact ih seen a ha

theorem dedupLoop_covers (seen : List String) (l : List Article) :
    ∀ t, t ≠ "" → t ∉ seen → (∃ a ∈ l, a.title = t) →
      ∃ a ∈ dedupLoop seen l, a.title = t := by
  induction l generalizing seen with
  | nil => simp
  | cons b rest ih =>
    rintro t ht hseen ⟨a, ha, hat⟩
    unfold dedupLoop
    split
    case isTrue h =>
      by_cases hbt : b.title = t
      · exact ⟨b, List.mem_cons_self _ _, hbt⟩
      · rcases List.mem_cons.mp ha with rfl | ha'
        · exact absurd hat hbt
        · obtain ⟨c, hc, hct⟩ := ih (b.title :: seen) t ht
            (by
              intro hm
              rcases List.mem_cons.mp hm with hm' | hm'
              · exact hbt hm'.symm
              · exact hseen hm')
            ⟨a, ha', hat⟩
          exact ⟨c, List.mem_cons_of_mem _ hc, hct⟩
    case isFalse h =>
      have h' : b.title = "" ∨ b.title ∈ seen := by
        by_cases hb : b.title = ""
        · exact Or.inl hb
        · by_cases hbs : b.title ∈ seen
          · exact Or.inr hbs
          · exact absurd ⟨hb, hbs⟩ h
      rcases List.mem_cons.mp ha with rfl | ha'
      · rcases h' with h'' | h''
        · exact absurd (hat ▸ h'') ht
        · exact absurd (hat ▸ h'') hseen
      · exact ih seen t ht hseen ⟨a, ha', hat⟩

/-! ## Helper lemmas about the stable sort model -/

theorem insertBy_perm (lt : α → α → Bool) (x : α) (l : List α) :
    (insertBy lt x l).Perm (x :: l) := by
  induction l with
  | nil => exact List.Perm.refl _
  | cons y l ih =>
    unfold insertBy
    split
    · exact List.Perm.refl _
    · exact (ih.cons y).trans (List.Perm.swap x y l)

theorem sortBy_aux_perm (lt : α → α → Bool) (l acc : List α) :
    (l.foldl (fun acc x => insertBy lt x acc) acc).Perm (acc ++ l) := by
  induction l generalizing acc with
  | nil => simp
  | cons x l ih =>
    simp only [List.foldl_cons]
    refine (ih (insertBy lt x acc)).trans ?_
    refine (((insertBy_perm lt x acc)).append_right l).trans ?_
    exact List.perm_middle.symm

theorem sortBy_perm (lt : α → α → Bool) (l : List α) : (sortBy lt l).Perm l := by
  simpa using sortBy_aux_perm lt l []

theorem insertBy_pairwise {β : Type} [LinearOrder β] (k : α → β) (lt : α → α → Bool)
    (hlt : ∀ a b, lt a b = true ↔ k b < k a) (x : α) {l : List α}
    (hl : l.Pairwise (fun a b => k b ≤ k a)) :
    (insertBy lt x l).Pairwise (fun a b => k b ≤ k a) := by
  induction l with
  | nil => simp [insertBy]
  | cons y l ih =>
    rw [List.pairwise_cons] at hl
    unfold insertBy
    split
    case isTrue h =>
      rw [List.pairwise_cons]
      refine ⟨fun z hz => ?_, List.pairwise_cons.mpr hl⟩
      rcases List.mem_cons.mp hz with rfl | hz'
      · exact le_of_lt ((hlt x z).mp h)
      · exact le_trans (hl.1 z hz') (le_of_lt ((hlt x y).mp h))
    case isFalse h =>
      rw [List.pairwise_cons]
      refine ⟨fun z hz => ?_, ih hl.2⟩
      rcases List.mem_cons.mp ((insertBy_perm lt x l).mem_iff.mp hz) with rfl | hz'
      · exact le_of_not_lt (fun hyx => h ((hlt z y).mpr hyx))
      · exact hl.1 z hz'

theorem sortBy_aux_pairwise {β : Type} [LinearOrder β] (k : α → β) (lt : α → α → Bool)
    (hlt : ∀ a b, lt a b = true ↔ k b < k a) (l acc : List α)
    (hacc : acc.Pairwise (fun a b => k b ≤ k a)) :
    (l.foldl (fun acc x => insertBy lt x acc) acc).Pairwise (fun a b => k b ≤ k a) := by
  induction l generalizing acc with
  | nil => exact hacc
  | cons x l ih => exact ih _ (insertBy_pairwise k lt hlt x hacc)

theorem sortBy_pairwise {β : Type} [LinearOrder β] (k : α → β) (lt : α → α → Bool)
    (hlt : ∀ a b, lt a b = true ↔ k b < k a) (l : List α) :
    (sortBy lt l).Pairwise (fun a b => k b ≤ k a) :=
  sortBy_aux_pairwise k lt hlt l [] (List.Pairwise.nil)

/-! ## Helper lemmas about the substring test -/

theorem hasSub_nil_left (l : List Char) : hasSub [] l = true := by
  cases l <;> simp [hasSub, headMatches]

theorem headMatches_append (n h r : List Char) (hm : headMatches n h = true) :
    headMatches n (h ++ r) = true := by
  induction n generalizing h with
  | nil => simp [headMatches]
  | cons a as ih =>
    cases h with
    | nil => simp [headMatches] at hm
    | cons b bs =>
      simp only [headMatches, Bool.and_eq_true] at hm
      simp only [List.cons_append, headMatches, Bool.and_eq_true]
      exact ⟨hm.1, ih bs hm.2⟩

theorem hasSub_append_right (n h r : List Char) (hm : hasSub n h = true) :
    hasSub n (h ++ r) = true := by
  induction h with
  | nil =>
    cases n with
    | nil => exact hasSub_nil_left r
    | cons a as => simp [hasSub, headMatches] at hm
  | cons b bs ih =>
    simp only [hasSub, Bool.or_eq_true] at hm
    simp only [List.cons_append, hasSub, Bool.or_eq_true]
    rcases hm with hm | hm
    · exact Or.inl (by simpa using headMatches_append n (b :: bs) r hm)
    · exact Or.inr (ih hm)

theorem headMatches_map (f : Char → Char) (n h : List Char)
    (hm : headMatches n h = true) :
    headMatches (n.map f) (h.map f) = true := by
  induction n generalizing h with
  | nil => simp [headMatches]
  | cons a as ih =>
    cases h with
    | nil => simp [headMatches] at hm
    | cons b bs =>
      simp only [headMatches, Bool.and_eq_true, beq_iff_eq] at hm
      simp only [List.map_cons, headMatches, Bool.and_eq_true, beq_iff_eq]
      exact ⟨by rw [hm.1], ih bs hm.2⟩

theorem hasSub_map (f : Char → Char) (n h : List Char) (hm : hasSub n h = true) :
    hasSub (n.map f) (h.map f) = true := by
  induction h with
  | nil =>
    cases n with
    | nil => simp [hasSub, headMatches]
    | cons a as => simp [hasSub, headMatches] at hm
  | cons b bs ih =>
    simp only [hasSub, Bool.or_eq_true] at hm
    simp only [List.map_cons, hasSub, Bool.or_eq_true]
    rcases hm with hm | hm
    · exact Or.inl (by simpa using headMatches_map f n (b :: bs) hm)
    · exact Or.inr (ih hm)

/-! ## Helper lemmas about truncation -/

theorem truncWith_length_le (l : List Char) (L : Nat) : (truncWith l L).length ≤ L + 3 := by
  unfold truncWith
  split
  case isTrue h =>
    simp only [List.length_append, List.length_take, ellipsis, List.length_cons,
      List.length_nil]
    omega
  case isFalse h => omega

theorem beforeLastSpace_length_le (l : List Char) :
    (beforeLastSpace l).length ≤ l.length := by
  unfold beforeLastSpace
  split
  case h_1 => exact le_refl _
  case h_2 c rest heq =>
    have h1 : (l.reverse.dropWhile (fun c => !(c == ' '))).length ≤ l.reverse.length :=
      (List.dropWhile_sublist _).length_le
    rw [heq] at h1
    simp only [List.length_cons, List.length_reverse] at h1 ⊢
    omega

/-! ## Claim theorems -/

/-- Claim C1, as stated, is false: with two fetched articles of distinct
non-empty titles "a" and "b" and `max_articles = 1`, the output must both keep
one article per distinct non-empty title and have length at most 1; the code
truncates after deduplication, so no article with title "b" survives. -/
theorem aggregator_dedup_cex :
    (("b" : String) ≠ "" ∧ ∃ x ∈ [artA1, artB1], x.title = "b") ∧
      ¬ ∃ y ∈ fetch_news_post [artA1, artB1] 1, y.title = "b" := by decide

/-- Claim C1 (amended): `fetch_news`'s output has length at most `max_articles`,
keeps at most one article per title (titles pairwise distinct), is a subsequence
of the accumulated list (first-seen relative order preserved), each retained
article is the first accumulated article bearing its title, and — whenever the
accumulated list fits within the limit — exactly one article is retained for
each distinct non-empty title. -/
theorem aggregator_dedup_spec (arts : List Article) (n : Nat) :
    (fetch_news_post arts n).length ≤ n ∧
    ((fetch_news_post arts n).map Article.title).Nodup ∧
    (fetch_news_post arts n).Sublist arts ∧
    (∀ a ∈ fetch_news_post arts n, arts.find? (fun b => b.title == a.title) = some a) ∧
    (arts.length ≤ n → ∀ t, t ≠ "" → (∃ a ∈ arts, a.title = t) →
      ∃ a ∈ fetch_news_post arts n, a.title = t) := by
  refine ⟨List.length_take_le n _, ?_, ?_, ?_, ?_⟩
  · rw [fetch_news_post, List.map_take]
    exact (List.take_sublist n _).nodup (dedupLoop_titles_nodup [] arts)
  · exact (List.take_sublist n _).trans (dedupLoop_sublist [] arts)
  · intro a ha
    exact dedupLoop_find [] arts a (List.mem_of_mem_take ha)
  · intro hlen t ht hex
    have hdlen : (dedupLoop [] arts).length ≤ n :=
      le_trans (dedupLoop_sublist [] arts).length_le hlen
    rw [fetch_news_post, List.take_of_length_le hdlen]
    exact dedupLoop_covers [] arts t ht (by simp) hex

/-- Witness for C1: on three accumulated articles with titles "x", "x", "y" and
limit 5, the distinct non-empty title "y" is represented in the output. -/
theorem aggregator_dedup_witness :
    ∃ a ∈ fetch_news_post [artX1, artX2, artY1] 5, a.title = "y" :=
  (aggregator_dedup_spec [artX1, artX2, artY1] 5).2.2.2.2 (by decide) "y" (by decide)
    (by decide)

/-- Claim C10: every article in `fetch_news`'s output has a non-empty title
(articles with missing or empty title are removed entirely) and output titles
are pairwise distinct. -/
theorem aggregator_output_titles (arts : List Article) (n : Nat) :
    (∀ a ∈ fetch_news_post arts n, a.title ≠ "") ∧
    ((fetch_news_post arts n).map Article.title).Nodup := by
  constructor
  · intro a ha
    exact (mem_dedupLoop [] arts a (List.mem_of_mem_take ha)).1
  · rw [fetch_news_post, List.map_take]
    exact (List.take_sublist n _).nodup (dedupLoop_titles_nodup [] arts)

/-- Witness for C10 at a concrete input containing a title-less article:
the surviving first article's title is non-empty. -/
theorem aggregator_output_titles_witness : artX1.title ≠ "" :=
  (aggregator_output_titles [artX1, artX2, artY1] 5).1 artX1 (by decide)

/-- Claim C2: on every path, `summarize(A, n, L)` returns at most `L` characters
plus the 3-character ellipsis marker. -/
theorem summarize_length_le (a : Article) (n L : Nat) :
    (summarize a n L).length ≤ L + 3 := by
  unfold summarize
  split_ifs with h1 h2 h3 h4
  · exact truncWith_length_le _ _
  · exact truncWith_length_le _ _
  · exact truncWith_length_le _ _
  · have hb := beforeLastSpace_length_le
      ((scoringSummary (split_into_sentences (fullTextOf a)) a.title.data n).take L)
    have ht := List.length_take_le L
      (scoringSummary (split_into_sentences (fullTextOf a)) a.title.data n)
    simp only [List.length_append, ellipsis, List.length_cons, List.length_nil]
    omega
  · omega

/-- Claim C8: when the concatenated blob is shorter than 100 characters,
`summarize` short-circuits to the blob (truncated with an ellipsis when it
exceeds `max_length`), with no sentence splitting or scoring. -/
theorem summarize_short_circuit (a : Article) (n L : Nat)
    (h : (fullTextOf a).length < 100) :
    summarize a n L =
      if (fullTextOf a).length > L then (fullTextOf a).take L ++ ellipsis
      else fullTextOf a := by
  unfold summarize
  rw [if_pos h]
  rfl

/-- Witness for C8: a 13-character blob is returned verbatim. -/
theorem summarize_short_circuit_witness :
    summarize artShort 3 250 = "Hi. there. ok".data :=
  (summarize_short_circuit artShort 3 250 (by decide)).trans (by decide)

/-- Claim C3, as stated, is false: a successfully decoded Guardian response item
whose `bodyText` field is absent yields an article with `has_full_content = true`
and empty `content`. -/
theorem guardian_flag_cex :
    guardianItemToArticle gItemNoBody ∈ fetchFromGuardian [gItemNoBody] ∧
    (guardianItemToArticle gItemNoBody).has_full_content = true ∧
    (guardianItemToArticle gItemNoBody).content = "" := by decide

/-- Claim C3 (amended): every article a succeeding Guardian fetch returns has
`has_full_content = true`, and its `content` is exactly the `bodyText` supplied
by the corresponding response item (empty when that field is absent) — so the
flag does not by itself guarantee non-empty content. -/
theorem guardian_flag_spec (items : List GuardianItem) (a : Article)
    (h : a ∈ fetchFromGuardian items) :
    a.has_full_content = true ∧ ∃ it ∈ items, a.content = it.bodyText.getD "" := by
  obtain ⟨it, hit, rfl⟩ := List.mem_map.mp h
  exact ⟨rfl, it, hit, rfl⟩

/-- Witness for C3 at an item that does carry body text. -/
theorem guardian_flag_witness :
    (guardianItemToArticle gItemFull).has_full_content = true ∧
    ∃ it ∈ [gItemFull], (guardianItemToArticle gItemFull).content = it.bodyText.getD "" :=
  guardian_flag_spec [gItemFull] (guardianItemToArticle gItemFull) (by decide)

set_option maxRecDepth 8192 in
/-- Claim C4, as stated, is false at a blob of length 114 whose punctuation
pieces are all too short to survive the filter: zero sentences survive (≤ the
`max_sentences` of 3), yet `summarize` returns the truncated description
("hello"), not the join of all (zero) filtered sentences (""). -/
theorem summarize_join_cex :
    100 ≤ (fullTextOf artNoSentence).length ∧
    (split_into_sentences (fullTextOf artNoSentence)).length ≤ 3 ∧
    summarize artNoSentence 3 250 ≠
      truncWith (joinSpace (split_into_sentences (fullTextOf artNoSentence))) 250 := by
  decide

/-- Claim C4 (amended): for a blob of length ≥ 100, if at least one and at most
`max_sentences` sentences survive the filter, `summarize` returns their join
(single spaces) truncated to `max_length` with an ellipsis when it exceeds
`max_length`; if zero sentences survive, it instead returns the description so
truncated. -/
theorem summarize_join_spec (a : Article) (n L : Nat)
    (h : 100 ≤ (fullTextOf a).length) :
    (1 ≤ (split_into_sentences (fullTextOf a)).length →
      (split_into_sentences (fullTextOf a)).length ≤ n →
      summarize a n L = truncWith (joinSpace (split_into_sentences (fullTextOf a))) L) ∧
    ((split_into_sentences (fullTextOf a)).length = 0 →
      summarize a n L = truncWith a.description.data L) := by
  constructor
  · intro h1 h2
    unfold summarize
    rw [if_neg (by omega), if_neg (by omega), if_pos h2]
  · intro h0
    unfold summarize
    rw [if_neg (by omega), if_pos h0]

set_option maxRecDepth 8192 in
/-- Witness for C4: a 124-character blob splitting into exactly 3 surviving
sentences is summarized as their space-join. -/
theorem summarize_join_witness :
    summarize artThree 3 250 =
      ("abcdefghijabcdefghijabcdefghijabcdefghij abcdefghijabcdefghijabcdefghijabcdefghij abcdefghijabcdefghijabcdefghijabcdefghij").data :=
  ((summarize_join_spec artThree 3 250 (by decide)).1 (by decide) (by decide)).trans
    (by decide)

/-- Claim C5: with no NewsAPI key configured, `_fetch_from_newsapi` returns the
empty list whatever the network would have answered, raises nothing (the result
is an `ok`), and the guard keeps it from attempting the network call. -/
theorem newsapi_no_key_spec (outcome : Except String (List NewsApiItem)) :
    fetchFromNewsapi none outcome = Except.ok [] ∧
    newsapiAttemptsNetwork none = false :=
  ⟨rfl, rfl⟩

/-- Claim C6: with pairwise-distinct `published_date` values, the RSS
`fetch_news` output is strictly descending on `published_date`; the sort is
applied to the full accumulated list (a permutation of it) before truncation. -/
theorem rss_sorted_spec (arts : List Article) (n : Nat)
    (h : (arts.map Article.published_date).Nodup) :
    List.Pairwise (fun a b => b.published_date < a.published_date)
      (rss_fetch_news_post arts n) ∧
    (sortBy rssLt arts).Perm arts ∧
    rss_fetch_news_post arts n = (sortBy rssLt arts).take n := by
  have hlt : ∀ a b : Article, rssLt a b = true ↔ b.published_date < a.published_date := by
    intro a b
    simp [rssLt]
  have hsorted := sortBy_pairwise Article.published_date rssLt hlt arts
  have hperm := sortBy_perm rssLt arts
  have hnd : ((sortBy rssLt arts).map Article.published_date).Nodup :=
    ((hperm.map Article.published_date).nodup_iff).mpr h
  refine ⟨?_, hperm, rfl⟩
  have h1 : (rss_fetch_news_post arts n).Pairwise
      (fun a b => b.published_date ≤ a.published_date) :=
    List.Pairwise.sublist (List.take_sublist n _) hsorted
  have h2 : ((rss_fetch_news_post arts n).map Article.published_date).Nodup := by
    rw [rss_fetch_news_post, List.map_take]
    exact (List.take_sublist n _).nodup hnd
  have h3 : (rss_fetch_news_post arts n).Pairwise
      (fun a b => a.published_date ≠ b.published_date) := List.pairwise_map.mp h2
  exact (h1.and h3).imp (fun hab => lt_of_le_of_ne hab.1 (Ne.symm hab.2))

/-- Witness for C6 on three articles with distinct dates and limit 2. -/
theorem rss_sorted_witness :
    List.Pairwise (fun a b : Article => b.published_date < a.published_date)
      (rss_fetch_news_post [rssA, rssB, rssC] 2) :=
  (rss_sorted_spec [rssA, rssB, rssC] 2 (by decide)).1

/-- Claim C7: the Learn button shows iff the educational score (2 per keyword
occurring in the lowercased title, 1 per keyword occurring only elsewhere in the
lowercased concatenation) reaches 2; in particular a title containing "Tutorial"
suffices, and with no keyword occurrence the button is withheld. -/
theorem learn_button_spec (a : Article) :
    (should_show_learn_button a = true ↔ 2 ≤ educationalScore a) ∧
    (hasSub "Tutorial".data a.title.data = true → should_show_learn_button a = true) ∧
    ((∀ kw ∈ educational_keywords, hasSub kw (eduFullText a) = false) →
      should_show_learn_button a = false) := by
  refine ⟨by simp [should_show_learn_button], ?_, ?_⟩
  · intro h
    have hlower : ("Tutorial".data.map Char.toLower) = "tutorial".data := by decide
    have htitle : hasSub "tutorial".data (eduTitle a) = true := by
      have h2 := hasSub_map Char.toLower "Tutorial".data a.title.data h
      rw [hlower] at h2
      exact h2
    have hfull : hasSub "tutorial".data (eduFullText a) = true := by
      rw [eduFullText]
      exact hasSub_append_right _ _ _ htitle
    have hval : (if hasSub "tutorial".data (eduFullText a) then
        (if hasSub "tutorial".data (eduTitle a) then 2 else 1) else 0) = 2 := by
      simp [hfull, htitle]
    have hkw : "tutorial".data ∈ educational_keywords := by decide
    have hle : (if hasSub "tutorial".data (eduFullText a) then
        (if hasSub "tutorial".data (eduTitle a) then 2 else 1) else 0) ≤ educationalScore a := by
      rw [educationalScore]
      exact List.single_le_sum (fun x _ => Nat.zero_le x) _ (List.mem_map_of_mem _ hkw)
    simp only [should_show_learn_button, decide_eq_true_eq]
    exact hval ▸ hle
  · intro h
    have hz : educationalScore a = 0 := by
      rw [educationalScore]
      apply List.sum_eq_zero
      intro x hx
      obtain ⟨kw, hkw, rfl⟩ := List.mem_map.mp hx
      rw [h kw hkw]
      simp
    simp [should_show_learn_button, hz]

/-- Witness for C7: an article titled "Python Tutorial Basics" with empty
description and content shows the Learn button. -/
theorem learn_button_witness : should_show_learn_button artTut = true :=
  (learn_button_spec artTut).2.1 (by decide)

/-- Claim C9: adding an article whose url is already bookmarked returns `false`
and leaves the store unchanged; otherwise the add returns `true` and the new
bookmark is prepended, so it heads the list `get_bookmarks` returns. -/
theorem bookmark_add_spec (state : List Bookmark) (a : Article) (now : String) :
    ((∃ b ∈ state, b.url = a.url) → add_bookmark state a now = (false, state)) ∧
    ((¬ ∃ b ∈ state, b.url = a.url) →
      (add_bookmark state a now).1 = true ∧
      get_bookmarks (add_bookmark state a now).2 = mkBookmark a now :: state) := by
  constructor
  · intro h
    rw [add_bookmark, if_pos]
    rw [List.any_eq_true]
    obtain ⟨b, hb, hurl⟩ := h
    exact ⟨b, hb, by simp [hurl]⟩
  · intro h
    have hfalse : ¬ state.any (fun b => b.url == a.url) = true := by
      rw [List.any_eq_true]
      rintro ⟨b, hb, hurl⟩
      exact h ⟨b, hb, by simpa using hurl⟩
    rw [add_bookmark, if_neg hfalse]
    exact ⟨rfl, rfl⟩

/-- Witness for C9: adding to an empty store succeeds and the new bookmark heads
the returned list. -/
theorem bookmark_add_witness :
    (add_bookmark [] artBm "2026-01-01T00:00:00").1 = true ∧
    get_bookmarks (add_bookmark [] artBm "2026-01-01T00:00:00").2 =
      mkBookmark artBm "2026-01-01T00:00:00" :: [] :=
  (bookmark_add_spec [] artBm "2026-01-01T00:00:00").2 (by decide)
